import Mathlib

/-!
Verification development for the Financial Crises pipeline
(`src/features.py`, `src/crisis_windows.py`, `src/analysis.py`).

Shallow embedding conventions:
* A pandas cell of the float `Close` column after `pd.to_numeric(..., errors="coerce")`
  is `Option ℚ` (`none` = NaN / missing).
* Derived float columns live in the tagged domain `V` below, which distinguishes
  `nan` (missing), the two numpy infinities, and finite values.  Finite values are
  rationals; the transcendental functions `np.log` and the square root inside
  `std` are abstract parameters `log sqrt : ℚ → ℚ`, so every theorem quantifies
  over them (the structural facts proved here hold for any interpretation).
* Dates (`pd.Timestamp`s on a DatetimeIndex) are modelled by `Int` with the usual
  order; the literal calendar dates are encoded as YYYYMMDD integers, which is
  order-faithful.  `pd.DateOffset(months=...)` arithmetic is abstracted into the
  two boundary maps `pre post : Int → Int` (`pre start` models
  `start - DateOffset(months=pre_crisis_months)`, `post end` models
  `end + DateOffset(months=post_crisis_months)`).
* A `dict` of DataFrames is an association list `List (String × List row)`.
-/

namespace FinCrises

/-- A raw `Close` cell before the `pd.to_numeric(..., errors="coerce")` coercion in
`features.py` line 31: either a numeric entry or an invalid/non-numeric one. -/
inductive RawVal where
  | num (q : ℚ)
  | invalid
deriving DecidableEq

/-- `pd.to_numeric(x, errors="coerce")` on one cell: numeric entries pass through,
invalid entries become NaN (`none`). -/
def toNumeric : RawVal → Option ℚ
  | .num q => some q
  | .invalid => none

/-- The float domain of derived pandas columns: NaN, the two infinities, or a
finite value. -/
inductive V where
  | nan
  | ninf
  | pinf
  | fin (q : ℚ)
deriving DecidableEq

/-- `pd.isna` on a float cell: true exactly for NaN (infinities are NOT missing). -/
def isna : V → Bool
  | .nan => true
  | _ => false

/-- Is the value finite (neither NaN nor an infinity)? -/
def isFin : V → Bool
  | .fin _ => true
  | _ => false

/-- Embed a possibly-missing rational cell into the float domain. -/
def vof : Option ℚ → V
  | none => .nan
  | some q => .fin q

/-- `np.log` on one float cell: NaN on missing input, NaN on negative input,
`-inf` at zero, and the (abstract) logarithm on positive input. -/
def vlog (log : ℚ → ℚ) : Option ℚ → V
  | none => .nan
  | some q => if q < 0 then .nan else if q = 0 then .ninf else .fin (log q)

/-- IEEE-style subtraction on the float domain. -/
def vsub : V → V → V
  | .nan, _ => .nan
  | _, .nan => .nan
  | .ninf, .pinf => .ninf
  | .ninf, .ninf => .nan
  | .ninf, .fin _ => .ninf
  | .pinf, .pinf => .nan
  | .pinf, .ninf => .pinf
  | .pinf, .fin _ => .pinf
  | .fin _, .ninf => .pinf
  | .fin _, .pinf => .ninf
  | .fin a, .fin b => .fin (a - b)

/-- IEEE-style addition on the float domain. -/
def vadd : V → V → V
  | .nan, _ => .nan
  | _, .nan => .nan
  | .ninf, .pinf => .nan
  | .ninf, .ninf => .ninf
  | .ninf, .fin _ => .ninf
  | .pinf, .ninf => .nan
  | .pinf, .pinf => .pinf
  | .pinf, .fin _ => .pinf
  | .fin _, .ninf => .ninf
  | .fin _, .pinf => .pinf
  | .fin a, .fin b => .fin (a + b)

/-- IEEE-style division on the float domain (numpy convention: `x / 0.0` is
`±inf` by the sign of `x`, `0.0 / 0.0` is NaN, `x / ±inf` is `0`). -/
def vdiv : V → V → V
  | .nan, _ => .nan
  | _, .nan => .nan
  | .fin a, .fin b =>
      if b = 0 then (if a = 0 then .nan else if 0 < a then .pinf else .ninf)
      else .fin (a / b)
  | .fin _, .ninf => .fin 0
  | .fin _, .pinf => .fin 0
  | .ninf, .fin b => if b < 0 then .pinf else .ninf
  | .pinf, .fin b => if b < 0 then .ninf else .pinf
  | .ninf, .ninf => .nan
  | .ninf, .pinf => .nan
  | .pinf, .ninf => .nan
  | .pinf, .pinf => .nan

/-- Minimum on the float domain with NaN absorbing (callers below filter NaN
first, matching pandas skipna aggregation). -/
def vmin : V → V → V
  | .nan, _ => .nan
  | _, .nan => .nan
  | .ninf, _ => .ninf
  | _, .ninf => .ninf
  | .pinf, y => y
  | x, .pinf => x
  | .fin a, .fin b => .fin (min a b)

/-- Maximum on the float domain with NaN absorbing. -/
def vmax : V → V → V
  | .nan, _ => .nan
  | _, .nan => .nan
  | .pinf, _ => .pinf
  | _, .pinf => .pinf
  | .ninf, y => y
  | x, .ninf => x
  | .fin a, .fin b => .fin (max a b)

/-- `Series.diff()`: position 0 is NaN, position `i ≥ 1` is `s[i] - s[i-1]`. -/
def diffV (xs : List V) : List V :=
  (List.range xs.length).map fun i =>
    if i = 0 then V.nan else vsub (xs.getD i V.nan) (xs.getD (i - 1) V.nan)

/-- Extract the rational contents of a list of floats, or `none` if any entry is
NaN or infinite. -/
def allFins : List V → Option (List ℚ)
  | [] => some []
  | .fin q :: xs => (allFins xs).map (fun qs => q :: qs)
  | _ :: _ => none

/-- Sample variance (ddof = 1) of a list of rationals; 0 on lists of length ≤ 1
(that case is guarded away by every caller). -/
def svar (qs : List ℚ) : ℚ :=
  let n : ℚ := qs.length
  if qs.length ≤ 1 then 0
  else ((qs.map (fun x => (x - qs.sum / n) ^ 2)).sum) / (n - 1)

/-- Sample standard deviation of the floats in one full rolling window: NaN if any
entry is NaN (pandas `min_periods` requires a full window of non-null values) and
NaN if any entry is infinite (an infinity poisons the mean-deviation sum to NaN);
otherwise `sqrt` of the sample variance. -/
def windowStd (sqrt : ℚ → ℚ) (w : List V) : V :=
  match allFins w with
  | none => V.nan
  | some qs => V.fin (sqrt (svar qs))

/-- `Series.rolling(window=30).std()`: NaN before 30 positions exist, else the
sample standard deviation of the 30-entry trailing window ending at `i`. -/
def rollingStd30 (sqrt : ℚ → ℚ) (xs : List V) : List V :=
  (List.range xs.length).map fun i =>
    if i + 1 < 30 then V.nan
    else windowStd sqrt ((xs.drop (i + 1 - 30)).take 30)

/-- One step of the cumulative-maximum scan: a missing cell leaves the
accumulator unchanged and produces a missing output cell, a present cell joins
the accumulator (pandas `cummax` doc semantics). -/
def cummaxFrom (acc : Option ℚ) : List (Option ℚ) → List (Option ℚ)
  | [] => []
  | none :: ps => none :: cummaxFrom acc ps
  | some q :: ps =>
      let m : ℚ := match acc with | none => q | some a => max a q
      some m :: cummaxFrom (some m) ps

/-- `Series.cummax()` with the default `skipna=True`. -/
def cummax (ps : List (Option ℚ)) : List (Option ℚ) := cummaxFrom none ps

/-- Running maximum of the present entries of a list, starting from `acc`. -/
def pmaxFrom (acc : Option ℚ) (ps : List (Option ℚ)) : Option ℚ :=
  ps.foldl (fun a p => match p with
    | none => a
    | some q => some (match a with | none => q | some b => max b q)) acc

/-- Maximum of the present entries of a list (`none` when all are missing). -/
def pmax (ps : List (Option ℚ)) : Option ℚ := pmaxFrom none ps

/-- One input row of a raw index DataFrame: a date and a raw `Close` cell. -/
structure RawRow where
  date : Int
  close : RawVal
deriving DecidableEq

instance : Inhabited RawRow := ⟨⟨0, .invalid⟩⟩

/-- One row of a featured DataFrame as produced by `compute_features`. -/
structure FeatRow where
  date : Int
  close : Option ℚ
  log_return : V
  vol_30d : V
  peak : Option ℚ
  drawdown : V
deriving DecidableEq

instance : Inhabited FeatRow := ⟨⟨0, none, .nan, .nan, none, .nan⟩⟩

/-- The coerced `Close` column of a raw frame (`features.py` line 31). -/
def closesOf (df : List RawRow) : List (Option ℚ) :=
  df.map fun r => toNumeric r.close

/-- The `log_return` column: `np.log(close).diff()` (`features.py` line 34). -/
def logReturnCol (log : ℚ → ℚ) (closes : List (Option ℚ)) : List V :=
  diffV (closes.map (vlog log))

/-- The `drawdown` column: `(close - peak) / peak` (`features.py` line 43). -/
def drawdownCol (closes peaks : List (Option ℚ)) : List V :=
  (List.range closes.length).map fun i =>
    vdiv (vsub (vof (closes.getD i none)) (vof (peaks.getD i none)))
      (vof (peaks.getD i none))

/-- The body of the `compute_features` loop for one DataFrame
(`features.py` lines 28–46). -/
def computeFrame (log sqrt : ℚ → ℚ) (df : List RawRow) : List FeatRow :=
  let closes := closesOf df
  let lr := logReturnCol log closes
  let vol := rollingStd30 sqrt lr
  let pk := cummax closes
  let dd := drawdownCol closes pk
  (List.range df.length).map fun i =>
    { date := (df.getD i default).date
      close := closes.getD i none
      log_return := lr.getD i V.nan
      vol_30d := vol.getD i V.nan
      peak := pk.getD i none
      drawdown := dd.getD i V.nan }

/-- `compute_features` (`features.py`): map the per-frame feature computation over
the dictionary of indices. -/
def compute_features (log sqrt : ℚ → ℚ) (data : List (String × List RawRow)) :
    List (String × List FeatRow) :=
  data.map fun p => (p.1, computeFrame log sqrt p.2)

/-- A crisis calendar entry (`crisis_windows.py` `CRISES`, after the
`pd.to_datetime` parse of lines 65–73).  `end` is reserved in Lean, so the `end`
field is called `endD`. -/
structure Crisis where
  name : String
  start : Int
  endD : Int
deriving DecidableEq

/-- The module-level `CRISES` calendar (`crisis_windows.py` lines 10–31), dates
encoded as YYYYMMDD integers (an order-faithful encoding of the literal dates). -/
def CRISES : List Crisis :=
  [ ⟨"dotcom_bubble", 20000301, 20021031⟩,
    ⟨"global_financial_crisis", 20071001, 20090331⟩,
    ⟨"european_debt_crisis", 20110701, 20121231⟩,
    ⟨"covid_crash", 20200215, 20200430⟩ ]

/-- One row of a labelled DataFrame as produced by `label_crisis_periods`. -/
structure LabRow where
  date : Int
  close : Option ℚ
  log_return : V
  vol_30d : V
  peak : Option ℚ
  drawdown : V
  regime : String
  crisis_name : Option String
  is_crisis : Nat
  is_pre_crisis : Nat
  is_high_risk : Nat
deriving DecidableEq

instance : Inhabited LabRow :=
  ⟨⟨0, none, .nan, .nan, none, .nan, "normal", none, 0, 0, 0⟩⟩

/-- The initialisation of the regime columns (`crisis_windows.py` lines 79–83):
every row starts as `normal` with no crisis name and zeroed flags, keeping the
feature columns of the input row. -/
def initLab (fr : FeatRow) : LabRow :=
  { date := fr.date, close := fr.close, log_return := fr.log_return,
    vol_30d := fr.vol_30d, peak := fr.peak, drawdown := fr.drawdown,
    regime := "normal", crisis_name := none,
    is_crisis := 0, is_pre_crisis := 0, is_high_risk := 0 }

/-- The crisis mask for one interval at one date:
`(df.index >= start) & (df.index <= end)`. -/
def crisisMask (c : Crisis) (d : Int) : Bool :=
  decide (c.start ≤ d) && decide (d ≤ c.endD)

/-- The pre-crisis mask: `(df.index >= pre_start) & (df.index < start)` where
`pre_start = start - DateOffset(months=pre_crisis_months)` is `pre c.start`. -/
def preMask (pre : Int → Int) (c : Crisis) (d : Int) : Bool :=
  decide (pre c.start ≤ d) && decide (d < c.start)

/-- The post-crisis mask: `(df.index > end) & (df.index <= post_end)` where
`post_end = end + DateOffset(months=post_crisis_months)` is `post c.endD`. -/
def postMask (post : Int → Int) (c : Crisis) (d : Int) : Bool :=
  decide (c.endD < d) && decide (d ≤ post c.endD)

/-- The body of the per-crisis loop of `label_crisis_periods`
(`crisis_windows.py` lines 85–108) restricted to one row: the crisis mask is
applied first, then the pre mask, then the post mask, each overwriting `regime`
and `crisis_name`, with `is_crisis`/`is_pre_crisis` set by the crisis/pre masks
only. -/
def applyCrisis (pre post : Int → Int) (r : LabRow) (c : Crisis) : LabRow :=
  let r1 :=
    if crisisMask c r.date then
      { r with regime := "crisis", crisis_name := some c.name, is_crisis := 1 }
    else r
  let r2 :=
    if preMask pre c r1.date then
      { r1 with regime := "pre_crisis", crisis_name := some c.name,
                is_pre_crisis := 1 }
    else r1
  if postMask post c r2.date then
    { r2 with regime := "post_crisis", crisis_name := some c.name }
  else r2

/-- Labelling of one row: fold the per-crisis loop over the calendar in
declaration order, then set `is_high_risk = is_crisis | is_pre_crisis`
(`crisis_windows.py` line 111, pandas bitwise or on the 0/1 columns). -/
def labelRowAll (pre post : Int → Int) (cs : List Crisis) (fr : FeatRow) : LabRow :=
  let r := cs.foldl (applyCrisis pre post) (initLab fr)
  { r with is_high_risk := r.is_crisis ||| r.is_pre_crisis }

/-- The per-frame labelling loop of `label_crisis_periods` over an explicit
calendar (the code always passes the module constant `CRISES`). -/
def labelFrames (pre post : Int → Int) (cs : List Crisis)
    (data : List (String × List FeatRow)) : List (String × List LabRow) :=
  data.map fun p => (p.1, p.2.map (labelRowAll pre post cs))

/-- `label_crisis_periods` (`crisis_windows.py` lines 34–121): label every frame
of the dictionary against the global `CRISES` calendar. -/
def label_crisis_periods (pre post : Int → Int)
    (data : List (String × List FeatRow)) : List (String × List LabRow) :=
  labelFrames pre post CRISES data

/-- The projection of a labelled row back to its feature columns. -/
def projFeat (r : LabRow) : FeatRow :=
  { date := r.date, close := r.close, log_return := r.log_return,
    vol_30d := r.vol_30d, peak := r.peak, drawdown := r.drawdown }

/-- The `{mean, std, min, max}` aggregate of one column within one regime group. -/
structure Agg where
  mean : V
  std : V
  min : V
  max : V
deriving DecidableEq

/-- Sum of a list of floats (0 on the empty list, as in pandas skipna sums). -/
def vsum (xs : List V) : V := xs.foldl vadd (V.fin 0)

/-- `fin s / n` for a positive integer count, propagating NaN and infinities. -/
def vdivNat (x : V) (n : Nat) : V :=
  match x with
  | .nan => .nan
  | .ninf => .ninf
  | .pinf => .pinf
  | .fin s => .fin (s / (n : ℚ))

/-- The pandas `"mean"` aggregate over the non-null values of a group. -/
def meanV (vals : List V) : V :=
  if vals.isEmpty then V.nan else vdivNat (vsum vals) vals.length

/-- The pandas `"std"` aggregate (sample, ddof = 1) over the non-null values of a
group: NaN with fewer than two values or with any infinite value. -/
def stdV (sqrt : ℚ → ℚ) (vals : List V) : V :=
  if vals.length < 2 then V.nan
  else match allFins vals with
  | none => V.nan
  | some qs => V.fin (sqrt (svar qs))

/-- The pandas `"min"` aggregate over the non-null values of a group. -/
def minV (vals : List V) : V :=
  match vals with
  | [] => V.nan
  | x :: xs => xs.foldl vmin x

/-- The pandas `"max"` aggregate over the non-null values of a group. -/
def maxV (vals : List V) : V :=
  match vals with
  | [] => V.nan
  | x :: xs => xs.foldl vmax x

/-- All four aggregates of one column of one regime group (the NaN cells are
dropped first: pandas aggregation is skipna). -/
def aggOf (sqrt : ℚ → ℚ) (xs : List V) : Agg :=
  let vals := xs.filter (fun v => !(isna v))
  { mean := meanV vals, std := stdV sqrt vals, min := minV vals, max := maxV vals }

/-- The four regime labels in the order `groupby` (with its default `sort=True`)
produces the group keys: lexicographic order of the label strings. -/
def regimeOrder : List String :=
  ["crisis", "normal", "post_crisis", "pre_crisis"]

/-- The regimes present in a labelled frame, in `groupby` key order. -/
def regimesPresent (df : List LabRow) : List String :=
  regimeOrder.filter (fun r => df.any (fun row => row.regime == r))

/-- One row of a `RegimeSummary` table: the regime key and the aggregates of
`log_return`, `vol_30d` and `drawdown` within that group. -/
structure SummaryRow where
  regime : String
  log_return : Agg
  vol_30d : Agg
  drawdown : Agg
deriving DecidableEq

/-- `regime_summary` (`analysis.py` lines 22–44):
`df.groupby("regime")[["log_return", "vol_30d", "drawdown"]].agg(["mean", "std", "min", "max"])`. -/
def regime_summary (sqrt : ℚ → ℚ) (df : List LabRow) : List SummaryRow :=
  (regimesPresent df).map fun r =>
    let g := df.filter (fun row => row.regime == r)
    { regime := r,
      log_return := aggOf sqrt (g.map (fun row => row.log_return)),
      vol_30d := aggOf sqrt (g.map (fun row => row.vol_30d)),
      drawdown := aggOf sqrt (g.map (fun row => row.drawdown)) }

/-- The combined table that `run_analysis` writes to
`all_indices_regime_summary.csv` (`analysis.py` lines 95–116): each per-series
summary is tagged with its index name (`flat["index"] = name`) and the tagged
tables are stacked with `pd.concat` in dictionary order. -/
def combinedSummary (sqrt : ℚ → ℚ) (data : List (String × List LabRow)) :
    List (SummaryRow × String) :=
  (data.map fun p => (regime_summary sqrt p.2).map (fun row => (row, p.1))).flatten

/-- Modelled from the spec: the combined RegimeSummary described in §4.4 and §8 —
group the concatenation of all per-series labelled rows by regime
("concatenation before grouping").  This definition follows the spec's words and
is compared against `combinedSummary`, which models the source. -/
def combinedSummarySpec (sqrt : ℚ → ℚ) (data : List (String × List LabRow)) :
    List SummaryRow :=
  regime_summary sqrt (data.map (fun p => p.2)).flatten

/-- Is the cell a present negative number?  (Bool helper for decidable claim
statements.) -/
def negB : Option ℚ → Bool
  | some q => decide (q < 0)
  | none => false

/-- Is the cell a present zero?  (Bool helper for decidable claim statements.) -/
def zeroB : Option ℚ → Bool
  | some q => decide (q = 0)
  | none => false

section Helpers

theorem rangeMap_getD {α : Type} (f : ℕ → α) (n i : ℕ) (d : α) (h : i < n) :
    ((List.range n).map f).getD i d = f i := by
  simp [List.getD_eq_getElem?_getD, List.getElem?_map, List.getElem?_range, h]

theorem getD_map_lt {α β : Type} (f : α → β) (l : List α) (i : ℕ) (d : β) (e : α)
    (h : i < l.length) : (l.map f).getD i d = f (l.getD i e) := by
  simp [List.getD_eq_getElem?_getD, List.getElem?_map,
    List.getElem?_eq_getElem h]

theorem closesOf_length (df : List RawRow) : (closesOf df).length = df.length := by
  simp [closesOf]

theorem diffV_length (xs : List V) : (diffV xs).length = xs.length := by
  simp [diffV]

theorem logReturnCol_length (log : ℚ → ℚ) (closes : List (Option ℚ)) :
    (logReturnCol log closes).length = closes.length := by
  simp [logReturnCol, diffV]

theorem rollingStd30_length (sqrt : ℚ → ℚ) (xs : List V) :
    (rollingStd30 sqrt xs).length = xs.length := by
  simp [rollingStd30]

theorem cummaxFrom_length (acc : Option ℚ) (ps : List (Option ℚ)) :
    (cummaxFrom acc ps).length = ps.length := by
  induction ps generalizing acc with
  | nil => rfl
  | cons p ps ih => cases p <;> simp [cummaxFrom, ih]

theorem cummax_length (ps : List (Option ℚ)) : (cummax ps).length = ps.length :=
  cummaxFrom_length none ps

theorem computeFrame_length (log sqrt : ℚ → ℚ) (df : List RawRow) :
    (computeFrame log sqrt df).length = df.length := by
  simp [computeFrame]

theorem computeFrame_getD (log sqrt : ℚ → ℚ) (df : List RawRow) (i : ℕ)
    (h : i < df.length) :
    (computeFrame log sqrt df).getD i default =
      { date := (df.getD i default).date
        close := (closesOf df).getD i none
        log_return := (logReturnCol log (closesOf df)).getD i V.nan
        vol_30d := (rollingStd30 sqrt (logReturnCol log (closesOf df))).getD i V.nan
        peak := (cummax (closesOf df)).getD i none
        drawdown := (drawdownCol (closesOf df) (cummax (closesOf df))).getD i V.nan } := by
  unfold computeFrame
  exact rangeMap_getD _ df.length i default h

theorem diffV_getD (xs : List V) (i : ℕ) (h : i < xs.length) :
    (diffV xs).getD i V.nan =
      if i = 0 then V.nan else vsub (xs.getD i V.nan) (xs.getD (i - 1) V.nan) := by
  unfold diffV
  exact rangeMap_getD _ xs.length i V.nan h

theorem rollingStd30_getD (sqrt : ℚ → ℚ) (xs : List V) (i : ℕ) (h : i < xs.length) :
    (rollingStd30 sqrt xs).getD i V.nan =
      if i + 1 < 30 then V.nan
      else windowStd sqrt ((xs.drop (i + 1 - 30)).take 30) := by
  unfold rollingStd30
  exact rangeMap_getD _ xs.length i V.nan h

theorem drawdownCol_getD (closes peaks : List (Option ℚ)) (i : ℕ)
    (h : i < closes.length) :
    (drawdownCol closes peaks).getD i V.nan =
      vdiv (vsub (vof (closes.getD i none)) (vof (peaks.getD i none)))
        (vof (peaks.getD i none)) := by
  unfold drawdownCol
  exact rangeMap_getD _ closes.length i V.nan h

theorem pmaxFrom_cons (acc : Option ℚ) (p : Option ℚ) (ps : List (Option ℚ)) :
    pmaxFrom acc (p :: ps) =
      pmaxFrom (match p with
        | none => acc
        | some q => some (match acc with | none => q | some b => max b q)) ps := by
  cases p <;> rfl

theorem cummaxFrom_getD_none (ps : List (Option ℚ)) (acc : Option ℚ) (i : ℕ)
    (hi : i < ps.length) (hp : ps.getD i none = none) :
    (cummaxFrom acc ps).getD i none = none := by
  induction ps generalizing acc i with
  | nil => cases hi
  | cons p ps ih =>
    cases i with
    | zero =>
      cases p with
      | none => simp [cummaxFrom]
      | some q => simp at hp
    | succ j =>
      have hj : j < ps.length := by simpa using hi
      have hp' : ps.getD j none = none := by simpa using hp
      cases p with
      | none => simpa [cummaxFrom] using ih acc j hj hp'
      | some q => simpa [cummaxFrom] using ih _ j hj hp'

theorem cummaxFrom_getD_some (ps : List (Option ℚ)) (acc : Option ℚ) (i : ℕ) (q : ℚ)
    (hi : i < ps.length) (hp : ps.getD i none = some q) :
    (cummaxFrom acc ps).getD i none = pmaxFrom acc (ps.take (i + 1)) := by
  induction ps generalizing acc i with
  | nil => cases hi
  | cons p ps ih =>
    cases i with
    | zero =>
      cases p with
      | none => simp at hp
      | some r => simp [cummaxFrom, pmaxFrom]
    | succ j =>
      have hj : j < ps.length := by simpa using hi
      have hp' : ps.getD j none = some q := by simpa using hp
      cases p with
      | none =>
        simpa [cummaxFrom, List.take_succ_cons, pmaxFrom_cons] using ih acc j hj hp'
      | some r =>
        simpa [cummaxFrom, List.take_succ_cons, pmaxFrom_cons] using ih _ j hj hp'

theorem pmaxFrom_some_le (ps : List (Option ℚ)) (a : ℚ) :
    ∃ m, pmaxFrom (some a) ps = some m ∧ a ≤ m := by
  induction ps generalizing a with
  | nil => exact ⟨a, rfl, le_refl a⟩
  | cons p ps ih =>
    cases p with
    | none => simpa [pmaxFrom_cons] using ih a
    | some q =>
      obtain ⟨m, hm, hle⟩ := ih (max a q)
      exact ⟨m, by simpa [pmaxFrom_cons] using hm, le_trans (le_max_left a q) hle⟩

theorem pmaxFrom_mem_le (ps : List (Option ℚ)) (acc : Option ℚ) (q : ℚ)
    (hq : some q ∈ ps) : ∃ m, pmaxFrom acc ps = some m ∧ q ≤ m := by
  induction ps generalizing acc with
  | nil => cases hq
  | cons p ps ih =>
    rcases List.mem_cons.mp hq with h | h
    · cases acc with
      | none =>
        obtain ⟨m, hm, hle⟩ := pmaxFrom_some_le ps q
        exact ⟨m, by simp [← h, pmaxFrom_cons, hm], hle⟩
      | some b =>
        obtain ⟨m, hm, hle⟩ := pmaxFrom_some_le ps (max b q)
        exact ⟨m, by simp [← h, pmaxFrom_cons, hm],
          le_trans (le_max_right b q) hle⟩
    · cases p with
      | none => simpa [pmaxFrom_cons] using ih acc h
      | some r => simpa [pmaxFrom_cons] using ih _ h

theorem applyCrisis_date (pre post : Int → Int) (r : LabRow) (c : Crisis) :
    (applyCrisis pre post r c).date = r.date := by
  simp only [applyCrisis]
  split_ifs <;> rfl

theorem applyCrisis_projFeat (pre post : Int → Int) (r : LabRow) (c : Crisis) :
    projFeat (applyCrisis pre post r c) = projFeat r := by
  simp only [applyCrisis]
  split_ifs <;> rfl

theorem preMask_false_of_crisis (pre : Int → Int) {c : Crisis} {d : Int}
    (h : crisisMask c d = true) : preMask pre c d = false := by
  simp only [crisisMask, preMask, Bool.and_eq_true, decide_eq_true_eq] at h ⊢
  simp only [Bool.and_eq_false_iff, decide_eq_false_iff_not]
  omega

theorem postMask_false_of_crisis (post : Int → Int) {c : Crisis} {d : Int}
    (h : crisisMask c d = true) : postMask post c d = false := by
  simp only [crisisMask, postMask, Bool.and_eq_true, decide_eq_true_eq] at h ⊢
  simp only [Bool.and_eq_false_iff, decide_eq_false_iff_not]
  omega

theorem applyCrisis_of_crisis (pre post : Int → Int) (r : LabRow) (c : Crisis)
    (hc : crisisMask c r.date = true) :
    applyCrisis pre post r c =
      { r with regime := "crisis", crisis_name := some c.name, is_crisis := 1 } := by
  have hp := preMask_false_of_crisis pre hc
  have hq := postMask_false_of_crisis post hc
  simp [applyCrisis, hc, hp, hq]

theorem applyCrisis_of_none (pre post : Int → Int) (r : LabRow) (c : Crisis)
    (h1 : crisisMask c r.date = false) (h2 : preMask pre c r.date = false)
    (h3 : postMask post c r.date = false) :
    applyCrisis pre post r c = r := by
  simp [applyCrisis, h1, h2, h3]

theorem applyCrisis_of_pre (pre post : Int → Int) (r : LabRow) (c : Crisis)
    (h1 : crisisMask c r.date = false) (h2 : preMask pre c r.date = true)
    (h3 : postMask post c r.date = false) :
    applyCrisis pre post r c =
      { r with regime := "pre_crisis", crisis_name := some c.name,
               is_pre_crisis := 1 } := by
  simp [applyCrisis, h1, h2, h3]

theorem applyCrisis_of_post (pre post : Int → Int) (r : LabRow) (c : Crisis)
    (h1 : crisisMask c r.date = false) (h2 : preMask pre c r.date = false)
    (h3 : postMask post c r.date = true) :
    applyCrisis pre post r c =
      { r with regime := "post_crisis", crisis_name := some c.name } := by
  simp [applyCrisis, h1, h2, h3]

theorem applyCrisis_flags (pre post : Int → Int) (r : LabRow) (c : Crisis)
    (h1 : crisisMask c r.date = false) (h2 : preMask pre c r.date = false) :
    (applyCrisis pre post r c).is_crisis = r.is_crisis ∧
    (applyCrisis pre post r c).is_pre_crisis = r.is_pre_crisis ∧
    (applyCrisis pre post r c).regime =
      (if postMask post c r.date then "post_crisis" else r.regime) := by
  by_cases h3 : postMask post c r.date = true
  · simp [applyCrisis_of_post pre post r c h1 h2 h3, h3]
  · have h3' : postMask post c r.date = false := by
      cases hh : postMask post c r.date
      · rfl
      · exact absurd hh h3
    simp [applyCrisis_of_none pre post r c h1 h2 h3', h3']

theorem foldl_applyCrisis_date (pre post : Int → Int) (cs : List Crisis)
    (r : LabRow) : (cs.foldl (applyCrisis pre post) r).date = r.date := by
  induction cs generalizing r with
  | nil => rfl
  | cons c cs ih => rw [List.foldl_cons, ih, applyCrisis_date]

theorem foldl_applyCrisis_projFeat (pre post : Int → Int) (cs : List Crisis)
    (r : LabRow) : projFeat (cs.foldl (applyCrisis pre post) r) = projFeat r := by
  induction cs generalizing r with
  | nil => rfl
  | cons c cs ih => rw [List.foldl_cons, ih, applyCrisis_projFeat]

theorem foldl_applyCrisis_of_none (pre post : Int → Int) (cs : List Crisis)
    (r : LabRow)
    (h : ∀ c ∈ cs, crisisMask c r.date = false ∧ preMask pre c r.date = false ∧
      postMask post c r.date = false) :
    cs.foldl (applyCrisis pre post) r = r := by
  induction cs with
  | nil => rfl
  | cons c cs ih =>
    obtain ⟨h1, h2, h3⟩ := h c (List.mem_cons_self c cs)
    rw [List.foldl_cons, applyCrisis_of_none pre post r c h1 h2 h3]
    exact ih fun c2 hc2 => h c2 (List.mem_cons_of_mem c hc2)

theorem foldl_applyCrisis_no_crisis_pre (pre post : Int → Int) (cs : List Crisis)
    (r : LabRow)
    (h : ∀ c ∈ cs, crisisMask c r.date = false ∧ preMask pre c r.date = false) :
    (cs.foldl (applyCrisis pre post) r).is_crisis = r.is_crisis ∧
    (cs.foldl (applyCrisis pre post) r).is_pre_crisis = r.is_pre_crisis ∧
    (r.regime = "post_crisis" →
      (cs.foldl (applyCrisis pre post) r).regime = "post_crisis") := by
  induction cs generalizing r with
  | nil => exact ⟨rfl, rfl, fun h => h⟩
  | cons c cs ih =>
    obtain ⟨h1, h2⟩ := h c (List.mem_cons_self c cs)
    obtain ⟨f1, f2, f3⟩ := applyCrisis_flags pre post r c h1 h2
    have hdate := applyCrisis_date pre post r c
    have hrest : ∀ c2 ∈ cs,
        crisisMask c2 (applyCrisis pre post r c).date = false ∧
        preMask pre c2 (applyCrisis pre post r c).date = false := by
      intro c2 hc2
      rw [hdate]
      exact h c2 (List.mem_cons_of_mem c hc2)
    obtain ⟨g1, g2, g3⟩ := ih (applyCrisis pre post r c) hrest
    refine ⟨by rw [List.foldl_cons, g1, f1], by rw [List.foldl_cons, g2, f2], ?_⟩
    intro hr
    rw [List.foldl_cons]
    apply g3
    rw [f3]
    split <;> simp [hr]

theorem logReturnCol_getD (log : ℚ → ℚ) (closes : List (Option ℚ)) (i : ℕ)
    (h : i < closes.length) :
    (logReturnCol log closes).getD i V.nan =
      if i = 0 then V.nan
      else vsub (vlog log (closes.getD i none))
        (vlog log (closes.getD (i - 1) none)) := by
  unfold logReturnCol
  have hlen : i < (closes.map (vlog log)).length := by simpa using h
  rw [diffV_getD _ i hlen]
  by_cases h0 : i = 0
  · simp [h0]
  · have hi1 : i - 1 < closes.length := lt_of_le_of_lt (Nat.sub_le i 1) h
    rw [if_neg h0, if_neg h0, getD_map_lt _ _ i _ none h,
      getD_map_lt _ _ (i - 1) _ none hi1]

theorem isna_logret (log : ℚ → ℚ) (a b : Option ℚ) :
    isna (vsub (vlog log a) (vlog log b)) =
      (a.isNone || b.isNone || negB a || negB b || (zeroB a && zeroB b)) := by
  cases a with
  | none => cases b <;> simp [vlog, vsub, isna, negB, zeroB]
  | some qa =>
    rcases lt_trichotomy qa 0 with ha | ha | ha
    · cases b with
      | none => simp [vlog, vsub, isna, negB, zeroB, ha]
      | some qb =>
        rcases lt_trichotomy qb 0 with hb | hb | hb <;>
          simp [vlog, vsub, isna, negB, zeroB, ha, hb]
    · subst ha
      cases b with
      | none => simp [vlog, vsub, isna, negB, zeroB]
      | some qb =>
        rcases lt_trichotomy qb 0 with hb | hb | hb
        · simp [vlog, vsub, isna, negB, zeroB, hb]
        · subst hb; simp [vlog, vsub, isna, negB, zeroB]
        · simp [vlog, vsub, isna, negB, zeroB, not_lt.mpr hb.le, hb.ne']
    · cases b with
      | none => simp [vlog, vsub, isna, negB, zeroB, not_lt.mpr ha.le, ha.ne']
      | some qb =>
        rcases lt_trichotomy qb 0 with hb | hb | hb
        · simp [vlog, vsub, isna, negB, zeroB, not_lt.mpr ha.le, ha.ne', hb]
        · subst hb
          simp [vlog, vsub, isna, negB, zeroB, not_lt.mpr ha.le, ha.ne']
        · simp [vlog, vsub, isna, negB, zeroB, not_lt.mpr ha.le, ha.ne',
            not_lt.mpr hb.le, hb.ne']

theorem vsub_vlog_pos (log : ℚ → ℚ) (qa qb : ℚ) (ha : 0 < qa) (hb : 0 < qb) :
    vsub (vlog log (some qa)) (vlog log (some qb)) = V.fin (log qa - log qb) := by
  simp [vlog, vsub, not_lt.mpr ha.le, ha.ne', not_lt.mpr hb.le, hb.ne']

theorem allFins_isSome (w : List V) (h : ∀ v ∈ w, isFin v = true) :
    (allFins w).isSome = true := by
  induction w with
  | nil => rfl
  | cons v w ih =>
    have hv := h v (List.mem_cons_self v w)
    have ih2 := ih fun u hu => h u (List.mem_cons_of_mem v hu)
    cases v with
    | fin q => simpa [allFins, Option.isSome_map] using ih2
    | nan => simp [isFin] at hv
    | ninf => simp [isFin] at hv
    | pinf => simp [isFin] at hv

theorem allFins_none_of_nan (w : List V) (v : V) (hv : v ∈ w)
    (hn : isna v = true) : allFins w = none := by
  induction w with
  | nil => cases hv
  | cons u w ih =>
    rcases List.mem_cons.mp hv with h | h
    · subst h
      cases v with
      | nan => rfl
      | ninf => simp [isna] at hn
      | pinf => simp [isna] at hn
      | fin q => simp [isna] at hn
    · cases u with
      | fin q => simp [allFins, ih h]
      | nan => rfl
      | ninf => rfl
      | pinf => rfl

theorem svar_nonneg (qs : List ℚ) : 0 ≤ svar qs := by
  rw [svar]
  split
  · exact le_refl 0
  · rename_i hlen
    apply div_nonneg
    · apply List.sum_nonneg
      intro x hx
      obtain ⟨y, _, rfl⟩ := List.mem_map.mp hx
      positivity
    · have h2 : 2 ≤ qs.length := by omega
      have : (2 : ℚ) ≤ (qs.length : ℚ) := by exact_mod_cast h2
      linarith

theorem vsub_nan_left (y : V) : vsub V.nan y = V.nan := by cases y <;> rfl

theorem vsub_nan_right (x : V) : vsub x V.nan = V.nan := by cases x <;> rfl

theorem cummax_getD_none (ps : List (Option ℚ)) (i : ℕ) (hi : i < ps.length)
    (hp : ps.getD i none = none) : (cummax ps).getD i none = none :=
  cummaxFrom_getD_none ps none i hi hp

theorem cummax_getD_some (ps : List (Option ℚ)) (i : ℕ) (q : ℚ)
    (hi : i < ps.length) (hp : ps.getD i none = some q) :
    (cummax ps).getD i none = pmaxFrom none (ps.take (i + 1)) :=
  cummaxFrom_getD_some ps none i q hi hp

theorem le_cummax_getD (ps : List (Option ℚ)) (i : ℕ) (q m : ℚ)
    (hi : i < ps.length) (hq : ps.getD i none = some q)
    (hm : (cummax ps).getD i none = some m) : q ≤ m := by
  rw [cummax_getD_some ps i q hi hq] at hm
  have hgi : ps[i] = some q := by
    rw [List.getD_eq_getElem?_getD, List.getElem?_eq_getElem hi] at hq
    simpa using hq
  have hmem : some q ∈ ps.take (i + 1) := by
    have h1 : (ps.take (i + 1))[i]? = some (some q) := by
      rw [List.getElem?_take, if_pos (Nat.lt_succ_self i),
        List.getElem?_eq_getElem hi, hgi]
    exact List.getElem?_mem h1
  obtain ⟨m2, hm2, hle⟩ := pmaxFrom_mem_le (ps.take (i + 1)) none q hmem
  rw [hm2] at hm
  exact (Option.some.inj hm) ▸ hle

theorem projFeat_initLab (fr : FeatRow) : projFeat (initLab fr) = fr := rfl

theorem projFeat_labelRowAll (pre post : Int → Int) (cs : List Crisis)
    (fr : FeatRow) : projFeat (labelRowAll pre post cs fr) = fr := by
  unfold labelRowAll
  have h := foldl_applyCrisis_projFeat pre post cs (initLab fr)
  calc projFeat { cs.foldl (applyCrisis pre post) (initLab fr) with
          is_high_risk :=
            (cs.foldl (applyCrisis pre post) (initLab fr)).is_crisis |||
              (cs.foldl (applyCrisis pre post) (initLab fr)).is_pre_crisis }
      = projFeat (cs.foldl (applyCrisis pre post) (initLab fr)) := rfl
    _ = projFeat (initLab fr) := h
    _ = fr := rfl

end Helpers

section Fixtures

/-- A one-observation labelled frame used by the C3 evaluation: regime `normal`,
`log_return` the given value, the other feature columns constant. -/
def sampleLab (lr : ℚ) : LabRow :=
  ⟨0, some 1, V.fin lr, V.fin 0, some 1, V.fin 0, "normal", none, 0, 0, 0⟩

/-- Two one-row series with different mean `log_return` in the shared regime
`normal`. -/
def sampleData : List (String × List LabRow) :=
  [("A", [sampleLab 1]), ("B", [sampleLab 3])]

end Fixtures

section Claims

/-- C10: `compute_features` and `label_crisis_periods` are per-element transforms
of their input dictionary: `compute_features` returns a dictionary with exactly
the input keys (both functions build fresh dictionaries from copies, `df.copy()`
at `features.py` line 28 and `crisis_windows.py` line 76, so the embedding is a
pure function of the input), and projecting each labelled row of
`label_crisis_periods`' output back to its feature columns (`Close`,
`log_return`, `vol_30d`, `peak`, `drawdown` and the date index) recovers the
input dictionary exactly: the labeller only adds the regime columns and
preserves every pre-existing column value-for-value at every row. -/
theorem no_mutation_label_preserves_features (log sqrt : ℚ → ℚ)
    (pre post : Int → Int) (raw : List (String × List RawRow))
    (data : List (String × List FeatRow)) :
    (compute_features log sqrt raw).map Prod.fst = raw.map Prod.fst ∧
    (label_crisis_periods pre post data).map
      (fun p => (p.1, p.2.map projFeat)) = data := by
  constructor
  · simp only [compute_features, List.map_map]
    rfl
  · simp only [label_crisis_periods, labelFrames, List.map_map]
    have h : ∀ p ∈ data,
        ((fun (p : String × List LabRow) => (p.1, p.2.map projFeat)) ∘
          (fun (p : String × List FeatRow) =>
            (p.1, p.2.map (labelRowAll pre post CRISES)))) p = id p := by
      intro p _
      show (p.1, (p.2.map (labelRowAll pre post CRISES)).map projFeat) = p
      rw [List.map_map]
      have : projFeat ∘ labelRowAll pre post CRISES = id :=
        funext (projFeat_labelRowAll pre post CRISES)
      rw [this, List.map_id]
    rw [List.map_congr_left h, List.map_id]

/-- C3 (amended): the combined table `run_analysis` writes is the vertical
stacking of the per-series regime summaries (each tagged with its index name),
not the regime summary of the concatenated rows; forgetting the tag, it equals
the concatenation of the per-series summaries, and it coincides with the
spec's concatenate-then-group summary only in degenerate cases such as a
single-series dictionary. -/
theorem combined_summary_is_stacking (sqrt : ℚ → ℚ) :
    (∀ data : List (String × List LabRow),
      (combinedSummary sqrt data).map Prod.fst =
        (data.map fun p => regime_summary sqrt p.2).flatten) ∧
    (∀ (name : String) (df : List LabRow),
      (combinedSummary sqrt [(name, df)]).map Prod.fst =
        combinedSummarySpec sqrt [(name, df)]) := by
  constructor
  · intro data
    unfold combinedSummary
    rw [List.map_flatten]
    congr 1
    rw [List.map_map]
    apply List.map_congr_left
    intro p _
    show ((regime_summary sqrt p.2).map fun row => (row, p.1)).map Prod.fst = _
    rw [List.map_map]
    exact List.map_id _
  · intro name df
    unfold combinedSummary combinedSummarySpec
    simp only [List.map_cons, List.map_nil, List.flatten_cons, List.flatten_nil,
      List.append_nil]
    rw [List.map_map]
    exact List.map_id _

/-- C3 counterexample: for two one-row series that share the regime `normal`
with different `log_return` values, the combined table `run_analysis` writes
(one row per series per regime, statistics computed within each series) is not
the regime summary of the concatenation of the rows (one pooled row per regime),
so the claim "the combined regime summary equals grouping the concatenation"
fails on the code. -/
theorem combined_summary_ne_concat_group :
    (combinedSummary (fun x => x) sampleData).map Prod.fst ≠
      combinedSummarySpec (fun x => x) sampleData := by
  exact ne_of_apply_ne List.length (by decide)

/-- C1: (i) if a date lies in the crisis interval of a calendar entry `c` and no
later calendar entry's crisis, pre or post mask matches the date, then after
labelling the row has `regime = "crisis"`, `crisis_name = c.name` and
`is_crisis = 1`: the masks of one interval are applied crisis-then-pre-then-post
(the pre/post masks of `c` itself cannot re-touch a date inside `[start, end]`),
and intervals are folded in calendar order; (ii) the last-processed interval's
assignment wins: if the pre mask of a (well-formed) later entry `c2` matches the
date and nothing after `c2` matches, the row ends as `pre_crisis`/`c2.name`
regardless of any earlier interval's crisis assignment. -/
theorem crisis_interval_labelling (pre post : Int → Int) :
    (∀ (cs1 cs2 : List Crisis) (c : Crisis) (fr : FeatRow),
      crisisMask c fr.date = true →
      (∀ c2 ∈ cs2, crisisMask c2 fr.date = false ∧
        preMask pre c2 fr.date = false ∧ postMask post c2 fr.date = false) →
      (labelRowAll pre post (cs1 ++ c :: cs2) fr).regime = "crisis" ∧
      (labelRowAll pre post (cs1 ++ c :: cs2) fr).crisis_name = some c.name ∧
      (labelRowAll pre post (cs1 ++ c :: cs2) fr).is_crisis = 1) ∧
    (∀ (cs1 cs2 : List Crisis) (c2 : Crisis) (fr : FeatRow),
      c2.start ≤ c2.endD →
      preMask pre c2 fr.date = true →
      (∀ c3 ∈ cs2, crisisMask c3 fr.date = false ∧
        preMask pre c3 fr.date = false ∧ postMask post c3 fr.date = false) →
      (labelRowAll pre post (cs1 ++ c2 :: cs2) fr).regime = "pre_crisis" ∧
      (labelRowAll pre post (cs1 ++ c2 :: cs2) fr).crisis_name = some c2.name ∧
      (labelRowAll pre post (cs1 ++ c2 :: cs2) fr).is_pre_crisis = 1) := by
  constructor
  · intro cs1 cs2 c fr hin hlater
    unfold labelRowAll
    rw [List.foldl_append, List.foldl_cons]
    have hd1 : (cs1.foldl (applyCrisis pre post) (initLab fr)).date = fr.date :=
      foldl_applyCrisis_date pre post cs1 (initLab fr)
    rw [applyCrisis_of_crisis pre post _ c (by rw [hd1]; exact hin)]
    rw [foldl_applyCrisis_of_none pre post cs2 _ (by
      intro c2 hc2
      have : ({ cs1.foldl (applyCrisis pre post) (initLab fr) with
          regime := "crisis", crisis_name := some c.name, is_crisis := 1 } :
          LabRow).date = fr.date := hd1
      rw [this]
      exact hlater c2 hc2)]
    exact ⟨rfl, rfl, rfl⟩
  · intro cs1 cs2 c2 fr hwf hpre hlater
    unfold labelRowAll
    rw [List.foldl_append, List.foldl_cons]
    have hd1 : (cs1.foldl (applyCrisis pre post) (initLab fr)).date = fr.date :=
      foldl_applyCrisis_date pre post cs1 (initLab fr)
    have hcm : crisisMask c2 fr.date = false := by
      simp only [preMask, Bool.and_eq_true, decide_eq_true_eq] at hpre
      simp only [crisisMask, Bool.and_eq_false_iff, decide_eq_false_iff_not]
      omega
    have hpm : postMask post c2 fr.date = false := by
      simp only [preMask, Bool.and_eq_true, decide_eq_true_eq] at hpre
      simp only [postMask, Bool.and_eq_false_iff, decide_eq_false_iff_not]
      omega
    rw [applyCrisis_of_pre pre post _ c2 (by rw [hd1]; exact hcm)
      (by rw [hd1]; exact hpre) (by rw [hd1]; exact hpm)]
    rw [foldl_applyCrisis_of_none pre post cs2 _ (by
      intro c3 hc3
      have : ({ cs1.foldl (applyCrisis pre post) (initLab fr) with
          regime := "pre_crisis", crisis_name := some c2.name,
          is_pre_crisis := 1 } : LabRow).date = fr.date := hd1
      rw [this]
      exact hlater c3 hc3)]
    exact ⟨rfl, rfl, rfl⟩

/-- C1 witness: the date 2020-03-01 lies inside the `covid_crash` interval, the
last calendar entry, so after labelling against the full default calendar its
row is `crisis`/`covid_crash`/`is_crisis = 1`; and with two synthetic intervals
`[10, 20]` and `[22, 40]` whose pre buffer starts at 17, the date 18 — inside
the first interval's crisis window — ends as `pre_crisis`/`c2` because the
later entry's pre mask overwrites the earlier crisis label. -/
theorem crisis_interval_labelling_witness :
    crisisMask ⟨"covid_crash", 20200215, 20200430⟩ 20200301 = true ∧
    ((labelRowAll (fun d => d - 600) (fun d => d + 600)
        ([⟨"dotcom_bubble", 20000301, 20021031⟩,
          ⟨"global_financial_crisis", 20071001, 20090331⟩,
          ⟨"european_debt_crisis", 20110701, 20121231⟩] ++
          ⟨"covid_crash", 20200215, 20200430⟩ :: [])
        ⟨20200301, some 1, V.nan, V.nan, some 1, V.nan⟩).regime = "crisis" ∧
      ((labelRowAll (fun d => d - 600) (fun d => d + 600)
        ([⟨"dotcom_bubble", 20000301, 20021031⟩,
          ⟨"global_financial_crisis", 20071001, 20090331⟩,
          ⟨"european_debt_crisis", 20110701, 20121231⟩] ++
          ⟨"covid_crash", 20200215, 20200430⟩ :: [])
        ⟨20200301, some 1, V.nan, V.nan, some 1, V.nan⟩).crisis_name =
          some "covid_crash" ∧
      (labelRowAll (fun d => d - 600) (fun d => d + 600)
        ([⟨"dotcom_bubble", 20000301, 20021031⟩,
          ⟨"global_financial_crisis", 20071001, 20090331⟩,
          ⟨"european_debt_crisis", 20110701, 20121231⟩] ++
          ⟨"covid_crash", 20200215, 20200430⟩ :: [])
        ⟨20200301, some 1, V.nan, V.nan, some 1, V.nan⟩).is_crisis = 1)) ∧
    preMask (fun d => d - 5) ⟨"c2", 22, 40⟩ 18 = true ∧
    crisisMask ⟨"c1", 10, 20⟩ 18 = true ∧
    ((labelRowAll (fun d => d - 5) (fun d => d + 5)
        ([⟨"c1", 10, 20⟩] ++ ⟨"c2", 22, 40⟩ :: [])
        ⟨18, some 1, V.nan, V.nan, some 1, V.nan⟩).regime = "pre_crisis" ∧
      (labelRowAll (fun d => d - 5) (fun d => d + 5)
        ([⟨"c1", 10, 20⟩] ++ ⟨"c2", 22, 40⟩ :: [])
        ⟨18, some 1, V.nan, V.nan, some 1, V.nan⟩).crisis_name = some "c2" ∧
      (labelRowAll (fun d => d - 5) (fun d => d + 5)
        ([⟨"c1", 10, 20⟩] ++ ⟨"c2", 22, 40⟩ :: [])
        ⟨18, some 1, V.nan, V.nan, some 1, V.nan⟩).is_pre_crisis = 1) :=
  ⟨by decide,
    (crisis_interval_labelling (fun d => d - 600) (fun d => d + 600)).1
      [⟨"dotcom_bubble", 20000301, 20021031⟩,
        ⟨"global_financial_crisis", 20071001, 20090331⟩,
        ⟨"european_debt_crisis", 20110701, 20121231⟩] []
      ⟨"covid_crash", 20200215, 20200430⟩
      ⟨20200301, some 1, V.nan, V.nan, some 1, V.nan⟩
      (by decide) (by decide),
    by decide, by decide,
    (crisis_interval_labelling (fun d => d - 5) (fun d => d + 5)).2
      [⟨"c1", 10, 20⟩] [] ⟨"c2", 22, 40⟩
      ⟨18, some 1, V.nan, V.nan, some 1, V.nan⟩
      (by decide) (by decide) (by decide)⟩

/-- C8: every labelled row satisfies
`is_high_risk = is_crisis | is_pre_crisis` (the flag is computed once, after all
intervals are applied), and a date matched only by some post-crisis mask (by no
crisis and no pre mask of any entry) ends with `regime = "post_crisis"` yet
`is_high_risk = 0`, because post matches set no boolean flag. -/
theorem is_high_risk_spec (pre post : Int → Int) :
    (∀ (cs : List Crisis) (fr : FeatRow),
      (labelRowAll pre post cs fr).is_high_risk =
        (labelRowAll pre post cs fr).is_crisis |||
          (labelRowAll pre post cs fr).is_pre_crisis) ∧
    (∀ (l1 l2 : List Crisis) (c : Crisis) (fr : FeatRow),
      postMask post c fr.date = true →
      (∀ c2 ∈ l1 ++ c :: l2, crisisMask c2 fr.date = false ∧
        preMask pre c2 fr.date = false) →
      (labelRowAll pre post (l1 ++ c :: l2) fr).regime = "post_crisis" ∧
      (labelRowAll pre post (l1 ++ c :: l2) fr).is_high_risk = 0) := by
  constructor
  · intro cs fr
    rfl
  · intro l1 l2 c fr hpost hno
    unfold labelRowAll
    rw [List.foldl_append, List.foldl_cons]
    have hd1 : (l1.foldl (applyCrisis pre post) (initLab fr)).date = fr.date :=
      foldl_applyCrisis_date pre post l1 (initLab fr)
    obtain ⟨hc1, hp1, _⟩ := foldl_applyCrisis_no_crisis_pre pre post l1 (initLab fr)
      (by
        intro c2 hc2
        have h := hno c2 (List.mem_append_left _ hc2)
        simpa [initLab] using h)
    have hcc := hno c (List.mem_append_right _ (List.mem_cons_self c l2))
    rw [applyCrisis_of_post pre post _ c (by rw [hd1]; exact hcc.1)
      (by rw [hd1]; exact hcc.2) (by rw [hd1]; exact hpost)]
    obtain ⟨gc, gp, gr⟩ := foldl_applyCrisis_no_crisis_pre pre post l2
      ({ l1.foldl (applyCrisis pre post) (initLab fr) with
          regime := "post_crisis", crisis_name := some c.name })
      (by
        intro c2 hc2
        have : ({ l1.foldl (applyCrisis pre post) (initLab fr) with
            regime := "post_crisis", crisis_name := some c.name } :
            LabRow).date = fr.date := hd1
        rw [this]
        have h := hno c2 (List.mem_append_right _ (List.mem_cons_of_mem c hc2))
        exact ⟨h.1, h.2⟩)
    constructor
    · exact gr rfl
    · show _ ||| _ = 0
      rw [gc, gp]
      show ((l1.foldl (applyCrisis pre post) (initLab fr)).is_crisis |||
        (l1.foldl (applyCrisis pre post) (initLab fr)).is_pre_crisis) = 0
      rw [hc1, hp1]
      show (0 : Nat) ||| 0 = 0
      exact Nat.zero_or 0

/-- C8 witness: with one interval `[10, 20]` and post buffer up to 23, the date
22 is matched only by the post mask: it is labelled `post_crisis` with
`is_high_risk = 0`. -/
theorem is_high_risk_spec_witness :
    postMask (fun d => d + 3) ⟨"c1", 10, 20⟩ 22 = true ∧
    ((labelRowAll (fun d => d - 3) (fun d => d + 3) [⟨"c1", 10, 20⟩]
        ⟨22, some 1, V.nan, V.nan, some 1, V.nan⟩).regime = "post_crisis" ∧
      (labelRowAll (fun d => d - 3) (fun d => d + 3) [⟨"c1", 10, 20⟩]
        ⟨22, some 1, V.nan, V.nan, some 1, V.nan⟩).is_high_risk = 0) :=
  ⟨by decide,
    (is_high_risk_spec (fun d => d - 3) (fun d => d + 3)).2 [] []
      ⟨"c1", 10, 20⟩ ⟨22, some 1, V.nan, V.nan, some 1, V.nan⟩
      (by decide) (by decide)⟩

/-- C9 (amended): the source performs no Calendar validation at all: `CRISES` is
plain literal data and `label_crisis_periods` touches dates only through the
three masks, so labelling is a total function — any date matched by no mask of
any interval keeps `regime = "normal"`, a null `crisis_name` and zero flags.  A
malformed interval with `start > end` is not rejected anywhere: its crisis mask
simply matches no date, while its pre and post masks may still label dates
(see the counterexample theorem). -/
theorem labelling_total_uncovered_normal (pre post : Int → Int) :
    (∀ (cs : List Crisis) (fr : FeatRow),
      (∀ c ∈ cs, crisisMask c fr.date = false ∧ preMask pre c fr.date = false ∧
        postMask post c fr.date = false) →
      (labelRowAll pre post cs fr).regime = "normal" ∧
      (labelRowAll pre post cs fr).crisis_name = none ∧
      (labelRowAll pre post cs fr).is_crisis = 0 ∧
      (labelRowAll pre post cs fr).is_pre_crisis = 0 ∧
      (labelRowAll pre post cs fr).is_high_risk = 0) ∧
    (∀ (c : Crisis) (d : Int), c.endD < c.start → crisisMask c d = false) := by
  constructor
  · intro cs fr h
    unfold labelRowAll
    rw [foldl_applyCrisis_of_none pre post cs (initLab fr)
      (by intro c2 hc2; simpa [initLab] using h c2 hc2)]
    refine ⟨rfl, rfl, rfl, rfl, ?_⟩
    show (0 : Nat) ||| 0 = 0
    exact Nat.zero_or 0
  · intro c d h
    simp only [crisisMask, Bool.and_eq_false_iff, decide_eq_false_iff_not]
    omega

/-- C9 witness: with one interval `[10, 20]` and buffers of 3, the uncovered
date 50 keeps `regime = "normal"` and all-zero flags. -/
theorem labelling_total_uncovered_normal_witness :
    (∀ c ∈ [(⟨"c1", 10, 20⟩ : Crisis)], crisisMask c (50 : Int) = false ∧
      preMask (fun d => d - 3) c 50 = false ∧
      postMask (fun d => d + 3) c 50 = false) ∧
    ((labelRowAll (fun d => d - 3) (fun d => d + 3) [⟨"c1", 10, 20⟩]
        ⟨50, some 1, V.nan, V.nan, some 1, V.nan⟩).regime = "normal" ∧
      (labelRowAll (fun d => d - 3) (fun d => d + 3) [⟨"c1", 10, 20⟩]
        ⟨50, some 1, V.nan, V.nan, some 1, V.nan⟩).crisis_name = none ∧
      (labelRowAll (fun d => d - 3) (fun d => d + 3) [⟨"c1", 10, 20⟩]
        ⟨50, some 1, V.nan, V.nan, some 1, V.nan⟩).is_crisis = 0 ∧
      (labelRowAll (fun d => d - 3) (fun d => d + 3) [⟨"c1", 10, 20⟩]
        ⟨50, some 1, V.nan, V.nan, some 1, V.nan⟩).is_pre_crisis = 0 ∧
      (labelRowAll (fun d => d - 3) (fun d => d + 3) [⟨"c1", 10, 20⟩]
        ⟨50, some 1, V.nan, V.nan, some 1, V.nan⟩).is_high_risk = 0) :=
  ⟨by decide,
    (labelling_total_uncovered_normal (fun d => d - 3) (fun d => d + 3)).1
      [⟨"c1", 10, 20⟩] ⟨50, some 1, V.nan, V.nan, some 1, V.nan⟩ (by decide)⟩

/-- C9 counterexample: the malformed interval `start = 10 > end = 0` is accepted
silently: no validation exists at Calendar construction or anywhere else, and
labelling proceeds — the interval's pre-crisis buffer `[7, 10)` still labels the
date 8 as `pre_crisis` with `is_high_risk = 1`, contradicting the claim that a
`start > end` interval is surfaced as a fatal configuration error before any
labelling begins and never silently tolerated during labelling. -/
theorem malformed_interval_not_rejected :
    (labelRowAll (fun d => d - 3) (fun d => d + 3) [⟨"bad", 10, 0⟩]
        ⟨8, some 1, V.nan, V.nan, some 1, V.nan⟩).regime = "pre_crisis" ∧
    (labelRowAll (fun d => d - 3) (fun d => d + 3) [⟨"bad", 10, 0⟩]
        ⟨8, some 1, V.nan, V.nan, some 1, V.nan⟩).is_high_risk = 1 := by
  decide

/-- C2 (amended): `log_return[0]` is missing; for `i ≥ 1`, `log_return[i]` is
missing iff `price[i]` or `price[i-1]` is missing or negative, or both are zero
(`np.log` is NaN on negative input but `-inf` at zero, so a single zero price
makes the return infinite, not missing); when both prices are positive,
`log_return[i] = log(price[i]) - log(price[i-1])`. -/
theorem log_return_spec (log sqrt : ℚ → ℚ) (df : List RawRow) (i : ℕ)
    (h1 : 1 ≤ i) (h2 : i < df.length) :
    (isna ((computeFrame log sqrt df).getD i default).log_return =
      (((closesOf df).getD i none).isNone ||
        ((closesOf df).getD (i - 1) none).isNone ||
        negB ((closesOf df).getD i none) ||
        negB ((closesOf df).getD (i - 1) none) ||
        (zeroB ((closesOf df).getD i none) &&
          zeroB ((closesOf df).getD (i - 1) none)))) ∧
    (∀ qa qb, (closesOf df).getD i none = some qa → 0 < qa →
      (closesOf df).getD (i - 1) none = some qb → 0 < qb →
      ((computeFrame log sqrt df).getD i default).log_return =
        V.fin (log qa - log qb)) ∧
    (0 < df.length →
      ((computeFrame log sqrt df).getD 0 default).log_return = V.nan) := by
  have hclen : i < (closesOf df).length := by rw [closesOf_length]; exact h2
  have key : ((computeFrame log sqrt df).getD i default).log_return =
      vsub (vlog log ((closesOf df).getD i none))
        (vlog log ((closesOf df).getD (i - 1) none)) := by
    rw [computeFrame_getD log sqrt df i h2]
    show (logReturnCol log (closesOf df)).getD i V.nan = _
    rw [logReturnCol_getD log (closesOf df) i hclen, if_neg (by omega : ¬ i = 0)]
  refine ⟨?_, ?_, ?_⟩
  · rw [key, isna_logret]
  · intro qa qb hqa ha hqb hb
    rw [key, hqa, hqb]
    exact vsub_vlog_pos log qa qb ha hb
  · intro h0
    rw [computeFrame_getD log sqrt df 0 h0]
    show (logReturnCol log (closesOf df)).getD 0 V.nan = V.nan
    rw [logReturnCol_getD log (closesOf df) 0 (by rw [closesOf_length]; exact h0),
      if_pos rfl]

/-- C2 witness: for the two-row series with prices 2 and 3, `log_return[1]` is
not missing and `log_return[0]` is missing. -/
theorem log_return_spec_witness :
    (1 : ℕ) ≤ 1 ∧ 1 < ([⟨0, RawVal.num 2⟩, ⟨1, RawVal.num 3⟩] : List RawRow).length ∧
    isna ((computeFrame (fun _ => (0 : ℚ)) (fun x => x)
        [⟨0, RawVal.num 2⟩, ⟨1, RawVal.num 3⟩]).getD 1 default).log_return = false ∧
    ((computeFrame (fun _ => (0 : ℚ)) (fun x => x)
        [⟨0, RawVal.num 2⟩, ⟨1, RawVal.num 3⟩]).getD 0 default).log_return = V.nan := by
  have h := log_return_spec (fun _ => (0 : ℚ)) (fun x => x)
    [⟨0, RawVal.num 2⟩, ⟨1, RawVal.num 3⟩] 1 (by decide) (by decide)
  exact ⟨by decide, by decide, h.1.trans (by decide), h.2.2 (by decide)⟩

/-- C2 counterexample: with prices 100 then 0, the claim says `log_return[1]` is
missing (price non-positive), but the code computes `np.log(0) = -inf` and
`log_return[1] = -inf`, which is not missing. -/
theorem log_return_zero_price_cex :
    ((computeFrame (fun _ => (0 : ℚ)) (fun x => x)
        [⟨0, RawVal.num 100⟩, ⟨1, RawVal.num 0⟩]).getD 1 default).log_return =
      V.ninf ∧
    isna ((computeFrame (fun _ => (0 : ℚ)) (fun x => x)
        [⟨0, RawVal.num 100⟩, ⟨1, RawVal.num 0⟩]).getD 1 default).log_return =
      false := by
  decide

/-- C4 (amended): `running_peak[i]` is the maximum of the non-missing prices at
positions `0..i` when `price[i]` is present (missing prices never update the
running maximum), but at a position whose own price is missing the output cell
is missing too — pandas `cummax` does NOT carry the previous peak into a NaN
position. -/
theorem running_peak_spec (log sqrt : ℚ → ℚ) (df : List RawRow) (i : ℕ)
    (h : i < df.length) :
    ((closesOf df).getD i none = none →
      ((computeFrame log sqrt df).getD i default).peak = none) ∧
    (∀ q, (closesOf df).getD i none = some q →
      ((computeFrame log sqrt df).getD i default).peak =
        pmax ((closesOf df).take (i + 1))) := by
  have hclen : i < (closesOf df).length := by rw [closesOf_length]; exact h
  have key : ((computeFrame log sqrt df).getD i default).peak =
      (cummax (closesOf df)).getD i none := by
    rw [computeFrame_getD log sqrt df i h]
  refine ⟨?_, ?_⟩
  · intro hnone
    rw [key]
    exact cummaxFrom_getD_none (closesOf df) none i hclen hnone
  · intro q hq
    rw [key]
    exact cummaxFrom_getD_some (closesOf df) none i q hclen hq

/-- C4 witness: with prices 2, missing, 1, the peak at position 2 is the maximum
2 of the present prices, the missing price having been skipped. -/
theorem running_peak_spec_witness :
    (closesOf [⟨0, RawVal.num 2⟩, ⟨1, RawVal.invalid⟩, ⟨2, RawVal.num 1⟩]).getD 2
        none = some 1 ∧
    ((computeFrame (fun _ => (0 : ℚ)) (fun x => x)
        [⟨0, RawVal.num 2⟩, ⟨1, RawVal.invalid⟩, ⟨2, RawVal.num 1⟩]).getD 2
        default).peak =
      pmax ((closesOf [⟨0, RawVal.num 2⟩, ⟨1, RawVal.invalid⟩,
        ⟨2, RawVal.num 1⟩]).take 3) ∧
    pmax ((closesOf [⟨0, RawVal.num 2⟩, ⟨1, RawVal.invalid⟩,
        ⟨2, RawVal.num 1⟩]).take 3) = some 2 :=
  ⟨by decide,
    (running_peak_spec (fun _ => (0 : ℚ)) (fun x => x)
      [⟨0, RawVal.num 2⟩, ⟨1, RawVal.invalid⟩, ⟨2, RawVal.num 1⟩] 2
      (by decide)).2 1 (by decide),
    by decide⟩

/-- C4 counterexample: with prices 2 then missing, the claim says the previous
peak 2 is carried forward to position 1, but pandas `cummax` leaves the output
missing at a position whose price is missing. -/
theorem running_peak_nan_cex :
    ((computeFrame (fun _ => (0 : ℚ)) (fun x => x)
        [⟨0, RawVal.num 2⟩, ⟨1, RawVal.invalid⟩]).getD 1 default).peak = none ∧
    ((computeFrame (fun _ => (0 : ℚ)) (fun x => x)
        [⟨0, RawVal.num 2⟩, ⟨1, RawVal.invalid⟩]).getD 1 default).peak ≠
      some 2 := by
  decide

/-- C5 (amended): when `price[i]` is present and the running peak is positive,
`drawdown[i] = (price[i] - peak[i]) / peak[i] ≤ 0` with equality whenever the
price equals the running peak (a new all-time peak); `drawdown[i]` is missing
when `price[i]` is missing, and with a zero peak it is missing only for a zero
price while a negative price yields `-inf`; with a negative peak (possible since
prices may be negative) the drawdown can be positive, so the unconditional
`drawdown ≤ 0` of the claim holds only for a positive peak. -/
theorem drawdown_spec (log sqrt : ℚ → ℚ) (df : List RawRow) (i : ℕ)
    (h : i < df.length) :
    ((closesOf df).getD i none = none →
      ((computeFrame log sqrt df).getD i default).drawdown = V.nan) ∧
    (∀ q m, (closesOf df).getD i none = some q →
      (cummax (closesOf df)).getD i none = some m → 0 < m →
      ((computeFrame log sqrt df).getD i default).drawdown =
        V.fin ((q - m) / m) ∧
      (q - m) / m ≤ 0 ∧
      (q = m → ((computeFrame log sqrt df).getD i default).drawdown = V.fin 0)) ∧
    (∀ q, (closesOf df).getD i none = some q →
      (cummax (closesOf df)).getD i none = some 0 →
      q ≤ 0 ∧ ((computeFrame log sqrt df).getD i default).drawdown =
        (if q = 0 then V.nan else V.ninf)) := by
  have hclen : i < (closesOf df).length := by rw [closesOf_length]; exact h
  have key : ((computeFrame log sqrt df).getD i default).drawdown =
      vdiv (vsub (vof ((closesOf df).getD i none))
          (vof ((cummax (closesOf df)).getD i none)))
        (vof ((cummax (closesOf df)).getD i none)) := by
    rw [computeFrame_getD log sqrt df i h]
    show (drawdownCol (closesOf df) (cummax (closesOf df))).getD i V.nan = _
    rw [drawdownCol_getD (closesOf df) (cummax (closesOf df)) i hclen]
  refine ⟨?_, ?_, ?_⟩
  · intro hnone
    rw [key, hnone, cummax_getD_none (closesOf df) i hclen hnone]
    rfl
  · intro q m hq hm hm0
    have hle : q ≤ m := le_cummax_getD (closesOf df) i q m hclen hq hm
    have hdd : ((computeFrame log sqrt df).getD i default).drawdown =
        V.fin ((q - m) / m) := by
      rw [key, hq, hm]
      show vdiv (vsub (V.fin q) (V.fin m)) (V.fin m) = _
      simp [vsub, vdiv, hm0.ne']
    refine ⟨hdd, ?_, ?_⟩
    · exact div_nonpos_iff.mpr (Or.inr ⟨by linarith, hm0.le⟩)
    · intro hqm
      rw [hdd, hqm]
      simp
  · intro q hq hm
    have hle : q ≤ 0 := le_cummax_getD (closesOf df) i q 0 hclen hq hm
    refine ⟨hle, ?_⟩
    rw [key, hq, hm]
    show vdiv (vsub (V.fin q) (V.fin 0)) (V.fin 0) = _
    by_cases hq0 : q = 0
    · subst hq0
      simp [vsub, vdiv]
    · have hqneg : q < 0 := lt_of_le_of_ne hle hq0
      simp [vsub, vdiv, sub_zero, hq0, not_lt.mpr hqneg.le]

/-- C5 witness: with prices 4 then 2, the peak at position 1 is 4 and the
drawdown `(2 - 4)/4` is non-positive. -/
theorem drawdown_spec_witness :
    (closesOf [⟨0, RawVal.num 4⟩, ⟨1, RawVal.num 2⟩]).getD 1 none = some 2 ∧
    (cummax (closesOf [⟨0, RawVal.num 4⟩, ⟨1, RawVal.num 2⟩])).getD 1 none =
      some 4 ∧
    (0 : ℚ) < 4 ∧ ((2 : ℚ) - 4) / 4 ≤ 0 :=
  ⟨by decide, by decide, by decide,
    ((drawdown_spec (fun _ => (0 : ℚ)) (fun x => x)
      [⟨0, RawVal.num 4⟩, ⟨1, RawVal.num 2⟩] 1 (by decide)).2.1 2 4
      (by decide) (by decide) (by decide)).2.1⟩

/-- C5 counterexample: with the all-negative prices -5 then -10 the running peak
is -5 and the code computes `drawdown[1] = (-10 - (-5)) / (-5) = 1 > 0`: a
defined drawdown value that is not ≤ 0, contradicting the claim. -/
theorem drawdown_positive_cex :
    ((computeFrame (fun _ => (0 : ℚ)) (fun x => x)
        [⟨0, RawVal.num (-5)⟩, ⟨1, RawVal.num (-10)⟩]).getD 1 default).drawdown =
      V.fin 1 ∧ ¬ ((1 : ℚ) ≤ 0) := by
  constructor
  · rw [computeFrame_getD _ _ _ 1 (by decide)]
    show (drawdownCol (closesOf [⟨0, RawVal.num (-5)⟩, ⟨1, RawVal.num (-10)⟩])
        (cummax (closesOf [⟨0, RawVal.num (-5)⟩, ⟨1, RawVal.num (-10)⟩]))).getD 1
        V.nan = V.fin 1
    rw [drawdownCol_getD _ _ 1 (by decide)]
    have h1 : (closesOf [⟨0, RawVal.num (-5)⟩, ⟨1, RawVal.num (-10)⟩]).getD 1
        none = some (-10) := by decide
    have h2 : (cummax (closesOf [⟨0, RawVal.num (-5)⟩,
        ⟨1, RawVal.num (-10)⟩])).getD 1 none = some (-5) := by decide
    rw [h1, h2]
    show vdiv (vsub (V.fin (-10)) (V.fin (-5))) (V.fin (-5)) = V.fin 1
    norm_num [vsub, vdiv]
  · norm_num

/-- C7 (amended): `compute_features` is a total transform — the embedding is a
total function mirroring the source, whose numeric edge cases never raise
(numpy only warns): it preserves the dictionary keys, every featured frame has
the length and date alignment of its input frame, a negative price makes the
dependent `log_return` missing, but a zero price makes it infinite
(`np.log(0) = -inf`) rather than missing, so edge cases produce missing or
infinite values, never an error. -/
theorem compute_features_safe (log sqrt : ℚ → ℚ) :
    (∀ data : List (String × List RawRow),
      (compute_features log sqrt data).map Prod.fst = data.map Prod.fst) ∧
    (∀ df : List RawRow, (computeFrame log sqrt df).length = df.length) ∧
    (∀ (df : List RawRow) (i : ℕ), i < df.length →
      ((computeFrame log sqrt df).getD i default).date =
        (df.getD i default).date) ∧
    (∀ (df : List RawRow) (i : ℕ) (q : ℚ), 1 ≤ i → i < df.length →
      (closesOf df).getD i none = some q → q < 0 →
      ((computeFrame log sqrt df).getD i default).log_return = V.nan) ∧
    (∀ (df : List RawRow) (i : ℕ) (qb : ℚ), 1 ≤ i → i < df.length →
      (closesOf df).getD i none = some 0 →
      (closesOf df).getD (i - 1) none = some qb → 0 < qb →
      ((computeFrame log sqrt df).getD i default).log_return = V.ninf) := by
  have hkey : ∀ (df : List RawRow) (i : ℕ), 1 ≤ i → i < df.length →
      ((computeFrame log sqrt df).getD i default).log_return =
        vsub (vlog log ((closesOf df).getD i none))
          (vlog log ((closesOf df).getD (i - 1) none)) := by
    intro df i h1 h2
    rw [computeFrame_getD log sqrt df i h2]
    show (logReturnCol log (closesOf df)).getD i V.nan = _
    rw [logReturnCol_getD log (closesOf df) i (by rw [closesOf_length]; exact h2),
      if_neg (by omega : ¬ i = 0)]
  refine ⟨?_, ?_, ?_, ?_, ?_⟩
  · intro data
    simp only [compute_features, List.map_map]
    rfl
  · intro df
    exact computeFrame_length log sqrt df
  · intro df i h
    rw [computeFrame_getD log sqrt df i h]
  · intro df i q h1 h2 hq hneg
    rw [hkey df i h1 h2, hq]
    show vsub (vlog log (some q)) _ = V.nan
    simp [vlog, hneg, vsub_nan_left]
  · intro df i qb h1 h2 hq hqb hpos
    rw [hkey df i h1 h2, hq, hqb]
    show vsub (vlog log (some 0)) (vlog log (some qb)) = V.ninf
    simp [vlog, vsub, not_lt.mpr hpos.le, hpos.ne']

/-- C7 witness: for the two-row series with prices 1 then -2, the featured frame
has length 2, aligned dates, and the negative price yields a missing
`log_return[1]`. -/
theorem compute_features_safe_witness :
    (closesOf [⟨0, RawVal.num 1⟩, ⟨1, RawVal.num (-2)⟩]).getD 1 none =
      some (-2) ∧ ((-2 : ℚ) < 0 ∧
    (computeFrame (fun _ => (0 : ℚ)) (fun x => x)
      [⟨0, RawVal.num 1⟩, ⟨1, RawVal.num (-2)⟩]).length = 2 ∧
    ((computeFrame (fun _ => (0 : ℚ)) (fun x => x)
      [⟨0, RawVal.num 1⟩, ⟨1, RawVal.num (-2)⟩]).getD 1 default).log_return =
        V.nan) :=
  ⟨by decide, by decide,
    (compute_features_safe (fun _ => (0 : ℚ)) (fun x => x)).2.1
      [⟨0, RawVal.num 1⟩, ⟨1, RawVal.num (-2)⟩],
    (compute_features_safe (fun _ => (0 : ℚ)) (fun x => x)).2.2.2.1
      [⟨0, RawVal.num 1⟩, ⟨1, RawVal.num (-2)⟩] 1 (-2) (by decide) (by decide)
      (by decide) (by decide)⟩

/-- C7 counterexample: with prices 1 then 0, the claim says the log-of-zero edge
case produces a missing `log_return[1]`, but the code produces the infinite
value `-inf`, which is not missing (`pd.isna(-inf)` is false). -/
theorem compute_features_inf_cex :
    ((computeFrame (fun _ => (0 : ℚ)) (fun x => x)
        [⟨0, RawVal.num 1⟩, ⟨1, RawVal.num 0⟩]).getD 1 default).log_return =
      V.ninf ∧
    isna ((computeFrame (fun _ => (0 : ℚ)) (fun x => x)
        [⟨0, RawVal.num 1⟩, ⟨1, RawVal.num 0⟩]).getD 1 default).log_return =
      false := by
  decide

/-- C6: `vol_30d[i]` is the sample standard deviation (ddof = 1) of the 30-entry
trailing window of `log_return` ending at row position `i`: it is missing for
the first 29 positions and whenever the window contains a missing return; when
the window extracts to rationals `qs` it equals `sqrt (svar qs)` and is
non-negative (for any square root with `0 ≤ x → 0 ≤ sqrt x`, as the real square
root satisfies); and on any fully populated (all-finite) return series the
rolling standard deviation has exactly `W - 1 = 29` leading missing values, the
value at every position from 29 on being defined.  (On the feature engine's own
output `log_return[0]` is always missing, so there `vol_30d` additionally starts
with 30 missing cells — see the witness.) -/
theorem rolling_volatility_spec (log sqrt : ℚ → ℚ)
    (hsq : ∀ x : ℚ, 0 ≤ x → 0 ≤ sqrt x) :
    (∀ (df : List RawRow) (i : ℕ), i < 29 → i < df.length →
      ((computeFrame log sqrt df).getD i default).vol_30d = V.nan) ∧
    (∀ (df : List RawRow) (i : ℕ), 29 ≤ i → i < df.length →
      (((logReturnCol log (closesOf df)).drop (i + 1 - 30)).take 30).any isna =
        true →
      ((computeFrame log sqrt df).getD i default).vol_30d = V.nan) ∧
    (∀ (df : List RawRow) (i : ℕ) (qs : List ℚ), 29 ≤ i → i < df.length →
      allFins (((logReturnCol log (closesOf df)).drop (i + 1 - 30)).take 30) =
        some qs →
      ((computeFrame log sqrt df).getD i default).vol_30d =
        V.fin (sqrt (svar qs)) ∧ 0 ≤ sqrt (svar qs)) ∧
    (∀ xs : List V, (∀ v ∈ xs, isFin v = true) →
      (∀ j, j < 29 → j < xs.length →
        (rollingStd30 sqrt xs).getD j V.nan = V.nan) ∧
      (∀ j, 29 ≤ j → j < xs.length →
        isna ((rollingStd30 sqrt xs).getD j V.nan) = false)) := by
  have hlen : ∀ df : List RawRow,
      (logReturnCol log (closesOf df)).length = df.length := by
    intro df
    rw [logReturnCol_length, closesOf_length]
  have hkey : ∀ (df : List RawRow) (i : ℕ), i < df.length →
      ((computeFrame log sqrt df).getD i default).vol_30d =
        (rollingStd30 sqrt (logReturnCol log (closesOf df))).getD i V.nan := by
    intro df i h
    rw [computeFrame_getD log sqrt df i h]
  refine ⟨?_, ?_, ?_, ?_⟩
  · intro df i h29 h
    rw [hkey df i h, rollingStd30_getD sqrt _ i (by rw [hlen]; exact h),
      if_pos (by omega)]
  · intro df i h29 h hany
    rw [hkey df i h, rollingStd30_getD sqrt _ i (by rw [hlen]; exact h),
      if_neg (by omega)]
    obtain ⟨v, hv, hn⟩ := List.any_eq_true.mp hany
    rw [show i + 1 - 30 = i - 29 from by omega] at hv
    simp [windowStd, allFins_none_of_nan _ v hv hn]
  · intro df i qs h29 h hqs
    rw [show i + 1 - 30 = i - 29 from by omega] at hqs
    constructor
    · rw [hkey df i h, rollingStd30_getD sqrt _ i (by rw [hlen]; exact h),
        if_neg (by omega)]
      simp [windowStd, hqs]
    · exact hsq _ (svar_nonneg qs)
  · intro xs hfin
    constructor
    · intro j hj29 hj
      rw [rollingStd30_getD sqrt xs j hj, if_pos (by omega)]
    · intro j hj29 hj
      rw [rollingStd30_getD sqrt xs j hj, if_neg (by omega)]
      have hw : ∀ v ∈ (xs.drop (j + 1 - 30)).take 30, isFin v = true := by
        intro v hv
        exact hfin v (List.mem_of_mem_drop (List.mem_of_mem_take hv))
      obtain ⟨qs, hqs⟩ := Option.isSome_iff_exists.mp
        (allFins_isSome ((xs.drop (j + 1 - 30)).take 30) hw)
      rw [show j + 1 - 30 = j - 29 from by omega] at hqs
      simp [windowStd, hqs, isna]

/-- C6 witness: on a 31-row constant-price frame `vol_30d[5]` is missing,
`vol_30d[29]` is missing because its window still contains `log_return[0]`,
which the feature engine always leaves missing, and on a fully populated list of
30 finite returns the rolling standard deviation at position 29 is already
defined. -/
theorem rolling_volatility_spec_witness :
    (∀ x : ℚ, 0 ≤ x → 0 ≤ (fun y : ℚ => y) x) ∧
    ((computeFrame (fun _ => (0 : ℚ)) (fun y : ℚ => y)
        ((List.range 31).map fun k => ⟨(k : Int), RawVal.num 1⟩)).getD 5
        default).vol_30d = V.nan ∧
    (((logReturnCol (fun _ => (0 : ℚ))
        (closesOf ((List.range 31).map fun k =>
          ⟨(k : Int), RawVal.num 1⟩))).drop (29 + 1 - 30)).take 30).any isna =
      true ∧
    ((computeFrame (fun _ => (0 : ℚ)) (fun y : ℚ => y)
        ((List.range 31).map fun k => ⟨(k : Int), RawVal.num 1⟩)).getD 29
        default).vol_30d = V.nan ∧
    isna ((rollingStd30 (fun y : ℚ => y)
        (List.replicate 30 (V.fin 0))).getD 29 V.nan) = false :=
  ⟨fun _ h => h,
    (rolling_volatility_spec (fun _ => (0 : ℚ)) (fun y : ℚ => y)
      (fun _ h => h)).1 ((List.range 31).map fun k => ⟨(k : Int), RawVal.num 1⟩)
      5 (by decide) (by decide),
    by decide,
    (rolling_volatility_spec (fun _ => (0 : ℚ)) (fun y : ℚ => y)
      (fun _ h => h)).2.1 ((List.range 31).map fun k => ⟨(k : Int), RawVal.num 1⟩)
      29 (by decide) (by decide) (by decide),
    ((rolling_volatility_spec (fun _ => (0 : ℚ)) (fun y : ℚ => y)
      (fun _ h => h)).2.2.2 (List.replicate 30 (V.fin 0)) (by decide)).2 29
      (by decide) (by decide)⟩

end Claims

end FinCrises
